import Mathlib

/-!
Verification of the RAG pipeline of `streamlit_app.py` (Ankits39229/stream_app).

The repository is a single Streamlit script.  The functions embedded here are
`create_vector_db`, `process_question`, `delete_vector_db` and the relevant
parts of `main` (the upload/build path, the chat path and the delete button).
External collaborators that the script calls but whose code is not in the
repository (langchain RecursiveCharacterTextSplitter, MultiQueryRetriever,
Chroma, the Ollama embedding and chat providers) are modelled from the spec
where the spec states their contract; each such definition says so in its
doc comment.  Environment outcomes that the script reacts to (whether a
`shutil.rmtree` call succeeds, whether the embedding provider succeeds on a
chunk) are passed in explicitly through an `Env` record, one Boolean per
fallible call, exactly mirroring the try/except structure of the source.
-/

namespace StreamApp

/-- Modelled from the spec: the chunker.  `create_vector_db` line 113 calls
`RecursiveCharacterTextSplitter(chunk_size=7500, chunk_overlap=100)`, library
code that is not part of the repository; the spec describes it as a
deterministic sliding window with fixed maximum size 7500 units and fixed
overlap 100 units between consecutive chunks, the final chunk possibly
shorter.  Fuel-based structural recursion so that it computes; the fuel is
instantiated with the length of the text in `splitText`.  The window step is
7500 - 100 = 7400. -/
def splitGo : Nat → List Char → List (List Char)
  | 0, l => [l]
  | fuel + 1, l =>
    if l.length ≤ 7500 then [l]
    else l.take 7500 :: splitGo fuel (l.drop 7400)

/-- The sliding-window split of a text at chunk size 7500, overlap 100. -/
def splitText (l : List Char) : List (List Char) := splitGo l.length l

/-- Concatenation of the chunk spans with the overlapping portions between
consecutive chunks removed: every chunk except the last contributes its first
7500 - 100 = 7400 units (its final 100 units are repeated as the prefix of
the next chunk), the last chunk contributes itself whole. -/
def reassemble : List (List Char) → List Char
  | [] => []
  | [c] => c
  | c :: c2 :: rest => c.take 7400 ++ reassemble (c2 :: rest)

/-- A chunk as stored in the vector DB: the `source` metadata set in
`create_vector_db` line 110 and the underlying span of text. -/
structure Chunk where
  source : String
  content : List Char
deriving DecidableEq

/-- An uploaded document after text extraction: `file_upload.name` and the
text that `extract_text_from_pdf` produced. -/
structure Doc where
  name : String
  text : List Char
deriving DecidableEq

/-- One conversation turn of `st.session_state["messages"]`. -/
structure Turn where
  role : String
  content : String
deriving DecidableEq

/-- The chunks `create_vector_db` builds for a document: the split of the
extracted text, each tagged with the document name as `source` (line 110,
`Document(page_content=text, metadata={"source": file_upload.name})`). -/
def chunksOf (d : Doc) : List Chunk :=
  (splitText d.text).map (fun c => { source := d.name, content := c })

/-- Split a character list at newline characters; accumulator-based so that
it computes.  Auxiliary for `parseVariants`. -/
def splitLinesGo (cur : List Char) : List Char → List (List Char)
  | [] => [cur.reverse]
  | c :: rest =>
    if c = '\n' then cur.reverse :: splitLinesGo [] rest
    else splitLinesGo (c :: cur) rest

/-- Modelled from the spec: the variant parser of the query expander.
`process_question` asks the language model for exactly 3 alternative
questions separated by newlines (QUERY_PROMPT, lines 153-161) and
`MultiQueryRetriever` (library code not in the repository) parses the model
output into newline-delimited variants, dropping empty lines. -/
def parseVariants (out : String) : List String :=
  ((splitLinesGo [] out.data).filter (fun l => !l.isEmpty)).map
    (fun l => String.mk l)

/-- Modelled from the spec: the query expander.  The spec contract is
`expand(question, llm) -> {question} ∪ generated_variants` with exactly 3
generated variants requested; malformed model output (fewer/more variants,
empty) makes the expander fall back to the original question alone. -/
def expand (question : String) (llmOut : String) : List String :=
  let vs := parseVariants llmOut
  if vs.length = 3 then question :: vs else [question]

/-- Deduplication by chunk identity, keeping the first occurrence; `seen`
accumulates the chunks already emitted. -/
def dedupAux (seen : List Chunk) : List Chunk → List Chunk
  | [] => []
  | c :: rest =>
    if c ∈ seen then dedupAux seen rest
    else c :: dedupAux (c :: seen) rest

/-- Deduplication by chunk identity, keeping first occurrences. -/
def dedup (l : List Chunk) : List Chunk := dedupAux [] l

/-- Modelled from the spec: the retriever (`MultiQueryRetriever.from_llm` at
lines 163-165, library code not in the repository).  It expands the question,
issues one similarity search per expanded query and merges the results by
union with deduplication on chunk identity.  The similarity search itself is
abstracted as a function from query to result chunks. -/
def retrieve (searchFn : String → List Chunk) (question llmOut : String) :
    List Chunk :=
  dedup (((expand question llmOut).map searchFn).flatten)

/-- The status of the session as the spec state machine sees it. -/
inductive Status where
  | Empty
  | Ready
deriving DecidableEq

/-- The session state of the app together with the durable storage.
`storage` is the `chroma_db` directory: `none` when the directory does not
exist, `some col` when it exists and holds the collection entries `col`.
`vector_db`, `messages`, `pdf_pages`, `file_upload` are the session-state
keys of the same names (`vector_db`, `pdf_pages`, `file_upload` reduced to
presence flags; the collection a live handle points at is `storage`). -/
structure AppState where
  storage : Option (List Chunk)
  vector_db : Bool
  messages : List Turn
  pdf_pages : Bool
  file_upload : Bool
deriving DecidableEq

/-- The state of a fresh session: `main` initialises `messages` to `[]` and
`vector_db` to `None` (lines 257-261); no storage directory exists. -/
def initState : AppState :=
  { storage := none, vector_db := false, messages := [], pdf_pages := false,
    file_upload := false }

/-- Status as exposed by the session: `Ready` when the `vector_db` handle is
set, `Empty` otherwise (`main` line 310 branches on exactly this). -/
def status (s : AppState) : Status :=
  if s.vector_db then Status.Ready else Status.Empty

/-- Outcomes of the fallible environment calls the script reacts to:
whether `shutil.rmtree("chroma_db")` succeeds on a given attempt (the first
attempt, and the retry inside `delete_vector_db`), and whether the embedding
provider succeeds on a chunk body. -/
structure Env where
  rmtreeOk : Bool
  rmtreeRetryOk : Bool
  embedOk : List Char → Bool

/-- `create_vector_db` (lines 79-141), acting on the storage directory.
Step 1 (lines 86-92): if `chroma_db` exists, try `shutil.rmtree`; a failure
is caught, logged as a warning and execution continues — cleanup is
best-effort.  Step 2 (lines 113-127): split the document and call
`Chroma.from_documents` into `persist_directory="chroma_db"` with collection
name `"myRAG"`.  The library call is modelled from the spec: embedding is
all-or-nothing (a provider failure on any chunk aborts the build with no
entry inserted and the exception propagates, `create_vector_db` has no
handler around it), and a successful build inserts the new chunks into the
collection at the storage path — into a fresh collection when the directory
was removed, added to the surviving collection when the cleanup failed.
Returns the new storage contents and whether the build succeeded. -/
def create_vector_db (env : Env) (d : Doc) (storage : Option (List Chunk)) :
    Option (List Chunk) × Bool :=
  let cleaned : Option (List Chunk) :=
    if storage.isSome then (if env.rmtreeOk then none else storage) else none
  let cs := chunksOf d
  if cs.all (fun c => env.embedOk c.content) then
    (some (cleaned.getD [] ++ cs), true)
  else
    (cleaned, false)

/-- The upload/build path of `main` (lines 272-279): `file_upload` is set
first, then `create_vector_db` runs; on success its result is assigned to
session `vector_db` and `pdf_pages` is set, on failure the exception
propagates out of `main` so neither assignment happens and the session keys
keep their previous values. -/
def ingest (env : Env) (d : Doc) (s : AppState) : AppState × Bool :=
  let r := create_vector_db env d s.storage
  if r.2 then
    ({ s with
        storage := r.1
        vector_db := true
        pdf_pages := true
        file_upload := true }, true)
  else
    ({ s with storage := r.1, file_upload := true }, false)

/-- `process_question` (lines 143-186): one language-model call for the
query expansion (the `MultiQueryRetriever` invokes the model on
QUERY_PROMPT), retrieval over the expanded queries, then one language-model
call on the grounded answer prompt.  Returns the response and the number of
language-model calls made (2). -/
def process_question (llmGen : String → String)
    (searchFn : String → List Chunk) (q : String) : String × Nat :=
  let expansionOut := llmGen q
  let ctx := retrieve searchFn q expansionOut
  let answer := llmGen (String.join (ctx.map (fun c => String.mk c.content)) ++ q)
  (answer, 2)

/-- Result of one chat submission. -/
structure AskResult where
  state : AppState
  response : Option String
  indexNotReady : Bool
  llmCalls : Nat

/-- The chat path of `main` (lines 303-321): the user turn is appended
first (line 305); then, only if the session `vector_db` handle is set, is
`process_question` invoked and the assistant turn appended (lines 310-321);
otherwise the `"Please upload a PDF file first."` warning — the
IndexNotReadyError surface of the spec — is shown, with no model call. -/
def ask (llmGen : String → String) (searchFn : String → List Chunk)
    (s : AppState) (prompt : String) : AskResult :=
  let s1 := { s with messages := s.messages ++ [Turn.mk "user" prompt] }
  if s1.vector_db then
    let r := process_question llmGen searchFn prompt
    { state := { s1 with messages := s1.messages ++ [Turn.mk "assistant" r.1] }
      response := some r.1
      indexNotReady := false
      llmCalls := r.2 }
  else
    { state := s1, response := none, indexNotReady := true, llmCalls := 0 }

/-- Result of one `delete_vector_db` run.  `success` is whether the
`st.success` banner is reached (versus the outer `st.error` handler);
`retried` is whether the retry path with `time.sleep(2)` executed; `delayMs`
is the retry delay slept. -/
structure DeleteResult where
  state : AppState
  success : Bool
  retried : Bool
  delayMs : Nat

/-- `delete_vector_db` (lines 200-244).  If the `chroma_db` directory
exists (line 207): delete the collection and `shutil.rmtree` it; when that
raises, the handler sleeps 2 seconds and retries the `rmtree` exactly once
(lines 220-228); a failure of the retry is only logged (`logger.error`) —
the exception is swallowed and execution continues.  In every path the
session keys `pdf_pages`, `file_upload`, `vector_db` are then popped and
`st.success` is shown (lines 231-235); `messages` is not touched.  The
outer handler (line 242) is unreachable from the modelled calls, so
`success` is always `true`.  The trailing `st.rerun` is a control transfer
and does not change the session state. -/
def delete_vector_db (env : Env) (s : AppState) : DeleteResult :=
  let cleanup : Option (List Chunk) × Bool × Nat :=
    match s.storage with
    | none => (none, false, 0)
    | some old =>
      if env.rmtreeOk then (none, false, 0)
      else if env.rmtreeRetryOk then (none, true, 2000)
      else (some old, true, 2000)
  { state :=
      { storage := cleanup.1
        vector_db := false
        messages := s.messages
        pdf_pages := false
        file_upload := false }
    success := true
    retried := cleanup.2.1
    delayMs := cleanup.2.2 }

/-- Concrete fixture: a first uploaded document. -/
def doc1 : Doc := { name := "doc1.pdf", text := "alpha".data }

/-- Concrete fixture: a second uploaded document. -/
def doc2 : Doc := { name := "doc2.pdf", text := "beta".data }

/-- Environment in which every storage and provider call succeeds. -/
def envGood : Env :=
  { rmtreeOk := true, rmtreeRetryOk := true, embedOk := fun _ => true }

/-- Environment in which the first `rmtree` fails but the retry succeeds. -/
def envNoRmtree : Env :=
  { rmtreeOk := false, rmtreeRetryOk := true, embedOk := fun _ => true }

/-- Environment in which both `rmtree` attempts fail. -/
def envNoRmtreeAtAll : Env :=
  { rmtreeOk := false, rmtreeRetryOk := false, embedOk := fun _ => true }

/-- Environment in which the embedding provider fails on every chunk. -/
def envEmbedFail : Env :=
  { rmtreeOk := true, rmtreeRetryOk := true, embedOk := fun _ => false }

/-- Concrete fixture: a session that has a built index and one user turn. -/
def stateWithDb : AppState :=
  { storage := some [Chunk.mk "doc1.pdf" "alpha".data]
    vector_db := true
    messages := [Turn.mk "user" "hi"]
    pdf_pages := true
    file_upload := true }


/-! ### Helper lemmas about the sliding-window split -/

/-- The fuel argument of `splitGo` is irrelevant once it dominates the length
of the text. -/
theorem splitGo_congr :
    ∀ (f₁ f₂ : Nat) (l : List Char), l.length ≤ f₁ → l.length ≤ f₂ →
      splitGo f₁ l = splitGo f₂ l := by
  intro f₁
  induction f₁ with
  | zero =>
    intro f₂ l h₁ _
    have hl : l = [] := List.eq_nil_of_length_eq_zero (Nat.le_zero.mp h₁)
    subst hl
    cases f₂ <;> simp [splitGo]
  | succ f ih =>
    intro f₂ l h₁ h₂
    cases f₂ with
    | zero =>
      have hl : l = [] := List.eq_nil_of_length_eq_zero (Nat.le_zero.mp h₂)
      subst hl
      simp [splitGo]
    | succ g =>
      simp only [splitGo]
      split
      · rfl
      · rename_i hlen
        have hd : (l.drop 7400).length = l.length - 7400 := List.length_drop _ _
        have hf : (l.drop 7400).length ≤ f := by omega
        have hg : (l.drop 7400).length ≤ g := by omega
        rw [ih g (l.drop 7400) hf hg]

/-- Unfolding of `splitGo` at sufficient fuel. -/
theorem splitGo_eq (f : Nat) (l : List Char) (h : l.length ≤ f) :
    splitGo f l =
      if l.length ≤ 7500 then [l]
      else l.take 7500 :: splitGo (l.drop 7400).length (l.drop 7400) := by
  cases f with
  | zero =>
    have hl : l = [] := List.eq_nil_of_length_eq_zero (Nat.le_zero.mp h)
    subst hl
    simp [splitGo]
  | succ g =>
    simp only [splitGo]
    by_cases hc : l.length ≤ 7500
    · rw [if_pos hc, if_pos hc]
    · rw [if_neg hc, if_neg hc]
      congr 1
      have hd : (l.drop 7400).length = l.length - 7400 := List.length_drop _ _
      exact splitGo_congr g (l.drop 7400).length (l.drop 7400) (by omega) le_rfl

/-- The defining unfolding of `splitText`: one chunk when the text fits in
the window, otherwise a full window followed by the split of the text
shifted by the step 7400. -/
theorem splitText_eq (l : List Char) :
    splitText l =
      if l.length ≤ 7500 then [l]
      else l.take 7500 :: splitText (l.drop 7400) := by
  unfold splitText
  exact splitGo_eq l.length l le_rfl

/-- The split always produces at least one chunk. -/
theorem splitText_ne_nil (l : List Char) : splitText l ≠ [] := by
  rw [splitText_eq]
  split <;> simp

/-- Fuel-bounded form of the coverage property, by induction on the bound. -/
theorem reassemble_splitText_bounded :
    ∀ (n : Nat) (l : List Char), l.length ≤ n →
      reassemble (splitText l) = l := by
  intro n
  induction n with
  | zero =>
    intro l h
    have hl : l = [] := List.eq_nil_of_length_eq_zero (Nat.le_zero.mp h)
    subst hl
    rw [splitText_eq]
    simp [reassemble]
  | succ n ih =>
    intro l h
    rw [splitText_eq]
    split
    · simp [reassemble]
    · rename_i hlen
      obtain ⟨c, rest, hcr⟩ : ∃ c rest, splitText (l.drop 7400) = c :: rest := by
        cases hsp : splitText (l.drop 7400) with
        | nil => exact absurd hsp (splitText_ne_nil _)
        | cons c rest => exact ⟨c, rest, rfl⟩
      have hd : (l.drop 7400).length = l.length - 7400 := List.length_drop _ _
      have htail : reassemble (splitText (l.drop 7400)) = l.drop 7400 :=
        ih (l.drop 7400) (by omega)
      rw [hcr] at htail
      rw [hcr]
      show (l.take 7500).take 7400 ++ reassemble (c :: rest) = l
      rw [htail, List.take_take]
      norm_num

/-- Chunk `i` of the split is the window of width 7500 at offset `7400 * i`. -/
theorem splitText_getD :
    ∀ (n : Nat) (l : List Char) (i : Nat), l.length ≤ n →
      i < (splitText l).length →
      (splitText l).getD i [] = (l.drop (7400 * i)).take 7500 := by
  intro n
  induction n with
  | zero =>
    intro l i h hi
    have hl : l = [] := List.eq_nil_of_length_eq_zero (Nat.le_zero.mp h)
    subst hl
    rw [splitText_eq] at hi ⊢
    simp at hi
    subst hi
    simp
  | succ n ih =>
    intro l i h hi
    rw [splitText_eq] at hi ⊢
    split at hi
    · rename_i hlen
      rw [if_pos hlen]
      simp at hi
      subst hi
      simp [List.take_of_length_le hlen]
    · rename_i hlen
      rw [if_neg hlen]
      cases i with
      | zero => simp
      | succ j =>
        have hd : (l.drop 7400).length = l.length - 7400 := List.length_drop _ _
        have hj : j < (splitText (l.drop 7400)).length := by
          simp at hi
          omega
        have := ih (l.drop 7400) j (by omega) hj
        simp only [List.getD_cons_succ]
        rw [this, List.drop_drop]
        have harith : 7400 + 7400 * j = 7400 * (j + 1) := by ring
        rw [harith]

/-- Every chunk except the last starts a full window: if chunk `i + 1`
exists then the text extends strictly beyond offset `7400 * i + 7500`. -/
theorem splitText_full :
    ∀ (n : Nat) (l : List Char) (i : Nat), l.length ≤ n →
      i + 1 < (splitText l).length →
      7400 * i + 7500 < l.length := by
  intro n
  induction n with
  | zero =>
    intro l i h hi
    have hl : l = [] := List.eq_nil_of_length_eq_zero (Nat.le_zero.mp h)
    subst hl
    rw [splitText_eq] at hi
    simp at hi
  | succ n ih =>
    intro l i h hi
    rw [splitText_eq] at hi
    split at hi
    · simp at hi
    · rename_i hlen
      cases i with
      | zero => omega
      | succ j =>
        have hd : (l.drop 7400).length = l.length - 7400 := List.length_drop _ _
        have hj : j + 1 < (splitText (l.drop 7400)).length := by
          simp at hi
          omega
        have := ih (l.drop 7400) j (by omega) hj
        have harith : 7400 * (j + 1) = 7400 * j + 7400 := by ring
        omega

/-! ### Helper lemmas about deduplication -/

/-- Membership in the accumulator-based deduplication. -/
theorem mem_dedupAux :
    ∀ (l seen : List Chunk) (a : Chunk),
      a ∈ dedupAux seen l ↔ (a ∈ l ∧ a ∉ seen) := by
  intro l
  induction l with
  | nil => simp [dedupAux]
  | cons c rest ih =>
    intro seen a
    simp only [dedupAux]
    split
    · rename_i hc
      rw [ih]
      simp only [List.mem_cons]
      constructor
      · rintro ⟨ha, hs⟩
        exact ⟨Or.inr ha, hs⟩
      · rintro ⟨ha, hs⟩
        rcases ha with ha | ha
        · exact absurd (ha ▸ hc) hs
        · exact ⟨ha, hs⟩
    · rename_i hc
      simp only [List.mem_cons, ih]
      by_cases hac : a = c
      · subst hac
        simp [hc]
      · simp only [hac, false_or]

/-- Deduplication preserves membership. -/
theorem mem_dedup (l : List Chunk) (a : Chunk) : a ∈ dedup l ↔ a ∈ l := by
  simp [dedup, mem_dedupAux]


/-! ### Helper lemmas about the app operations -/

/-- The storage an ingest leaves behind is the storage `create_vector_db`
produced, whether or not the build succeeded. -/
theorem ingest_storage (env : Env) (d : Doc) (s : AppState) :
    (ingest env d s).1.storage = (create_vector_db env d s.storage).1 := by
  cases h : (create_vector_db env d s.storage).2 <;> simp [ingest, h]

/-- When the cleanup `rmtree` succeeds, the storage after `create_vector_db`
is either exactly the new chunks of the document or absent. -/
theorem create_vector_db_cleanup_ok (env : Env) (d : Doc)
    (st : Option (List Chunk)) (h : env.rmtreeOk = true) :
    (create_vector_db env d st).1 = some (chunksOf d) ∨
      (create_vector_db env d st).1 = none := by
  unfold create_vector_db
  cases st <;> simp [h] <;> split <;> simp

/-- Deleting from a state whose storage is already absent and whose index
session keys are already cleared changes nothing: the second leg of the
idempotence of destroy. -/
theorem delete_vector_db_noop (env : Env) (t : AppState)
    (h : t.storage = none) (h2 : t.vector_db = false)
    (h3 : t.pdf_pages = false) (h4 : t.file_upload = false) :
    (delete_vector_db env t).state = t := by
  obtain ⟨st, vd, ms, pp, fu⟩ := t
  dsimp at h h2 h3 h4
  subst h
  subst h2
  subst h3
  subst h4
  rfl

/-! ### The claims -/

/-- C3: for every input text T, concatenating the spans underlying all
chunks produced by split(T), with the overlapping portions between
consecutive chunks removed, reconstructs T exactly. -/
theorem c3_coverage (T : List Char) : reassemble (splitText T) = T :=
  reassemble_splitText_bounded T.length T le_rfl

/-- C4: for every input text and every pair of consecutive chunks produced
by split, the shared suffix of the earlier chunk (its span past offset
7400) equals the 100-unit prefix of the later chunk, and its length is
exactly the configured overlap 100; the hypothesis `i + 1 < length` makes
the exception for the last chunk explicit. -/
theorem c4_overlap (T : List Char) (i : Nat)
    (h : i + 1 < (splitText T).length) :
    ((splitText T).getD i []).drop 7400
        = ((splitText T).getD (i + 1) []).take 100 ∧
      (((splitText T).getD i []).drop 7400).length = 100 := by
  have hi : i < (splitText T).length := Nat.lt_of_succ_lt h
  have h1 := splitText_getD T.length T i le_rfl hi
  have h2 := splitText_getD T.length T (i + 1) le_rfl h
  have hfull := splitText_full T.length T i le_rfl h
  rw [h1, h2]
  constructor
  · rw [List.drop_take, List.drop_drop, List.take_take]
    have harith : 7400 * i + 7400 = 7400 * (i + 1) := by ring
    rw [harith]
    norm_num
  · simp only [List.length_drop, List.length_take, List.length_drop]
    omega

theorem c4_overlap_witness :
    0 + 1 < (splitText (List.replicate 14000 'a')).length ∧
    ((splitText (List.replicate 14000 'a')).getD 0 []).drop 7400
        = ((splitText (List.replicate 14000 'a')).getD (0 + 1) []).take 100 ∧
      (((splitText (List.replicate 14000 'a')).getD 0 []).drop 7400).length
        = 100 := by
  have hdrop : List.drop 7400 (List.replicate 14000 'a')
      = List.replicate 6600 'a' := by
    rw [List.drop_replicate]
  have hone : splitText (List.replicate 6600 'a')
      = [List.replicate 6600 'a'] := by
    rw [splitText_eq, if_pos (by rw [List.length_replicate]; omega)]
  have h2 : (splitText (List.replicate 14000 'a')).length = 2 := by
    rw [splitText_eq, if_neg (by rw [List.length_replicate]; omega), hdrop,
      hone]
    rfl
  refine ⟨by omega, c4_overlap _ 0 (by omega)⟩

/-- C10: every input text shorter than the maximum chunk size 7500
(including the empty text) is split into exactly one chunk, the text
itself. -/
theorem c10_single_chunk (T : List Char) (h : T.length < 7500) :
    splitText T = [T] := by
  rw [splitText_eq, if_pos (Nat.le_of_lt h)]

theorem c10_single_chunk_witness :
    ([] : List Char).length < 7500 ∧ splitText [] = [([] : List Char)] :=
  ⟨by decide, c10_single_chunk [] (by decide)⟩

/-- C1 (amended): after `ingest doc2` following a successful `ingest doc1`,
PROVIDED the best-effort `shutil.rmtree` cleanup of the existing collection
succeeds, every chunk left in storage carries the source of doc2, so a
search never returns a chunk whose source is doc1.  The claim as stated,
with unconditional destruction of the old collection, fails: see the
counterexample. -/
theorem c1_rebuild_when_cleanup_succeeds (s0 : AppState) (env1 env2 : Env)
    (d1 d2 : Doc) (hrm : env2.rmtreeOk = true)
    (_hok : (ingest env1 d1 s0).2 = true) (hname : d1.name ≠ d2.name) :
    ∀ c ∈ (ingest env2 d2 (ingest env1 d1 s0).1).1.storage.getD [],
      c.source ≠ d1.name := by
  intro c hc
  rw [ingest_storage] at hc
  rcases create_vector_db_cleanup_ok env2 d2 (ingest env1 d1 s0).1.storage hrm
    with h | h <;> rw [h] at hc
  · simp only [Option.getD_some] at hc
    obtain ⟨x, hx, rfl⟩ := List.mem_map.mp hc
    exact fun heq => hname heq.symm
  · simp at hc

theorem c1_rebuild_witness :
    envGood.rmtreeOk = true ∧ (ingest envGood doc1 initState).2 = true ∧
    doc1.name ≠ doc2.name ∧
    ∀ c ∈ (ingest envGood doc2 (ingest envGood doc1 initState).1).1.storage.getD [],
      c.source ≠ doc1.name :=
  ⟨rfl, by decide, by decide,
    c1_rebuild_when_cleanup_succeeds initState envGood envGood doc1 doc2 rfl
      (by decide) (by decide)⟩

/-- C1 counterexample: when the best-effort cleanup fails (the exception at
lines 86-92 is caught and only logged), the build proceeds into the
surviving directory and a chunk of doc1 is still in storage after
`ingest doc2` followed a successful `ingest doc1`, so the old collection
was not destroyed before the new index was built and a search can return a
doc1 chunk. -/
theorem c1_counterexample :
    (ingest envGood doc1 initState).2 = true ∧
    doc1.name ≠ doc2.name ∧
    Chunk.mk "doc1.pdf" "alpha".data
      ∈ (ingest envNoRmtree doc2 (ingest envGood doc1 initState).1).1.storage.getD [] ∧
    (Chunk.mk "doc1.pdf" "alpha".data).source = doc1.name :=
  ⟨by decide, by decide, by decide, rfl⟩

/-- C2: a build in which the embedding provider fails on some chunk aborts
as a whole: `ingest` reports failure, no collection appears in storage
(starting from the fresh Empty state with no storage), and the session is
left in `Empty`, never a half-populated `Ready`. -/
theorem c2_all_or_nothing (env : Env) (d : Doc) (s : AppState)
    (hempty : s.vector_db = false) (hstorage : s.storage = none)
    (hfail : ∃ c ∈ chunksOf d, env.embedOk c.content = false) :
    (ingest env d s).2 = false ∧ (ingest env d s).1.storage = none ∧
      status (ingest env d s).1 = Status.Empty := by
  have hall : ((chunksOf d).all fun c => env.embedOk c.content) = false := by
    cases hb : (chunksOf d).all fun c => env.embedOk c.content
    · rfl
    · obtain ⟨c, hc, hcf⟩ := hfail
      have := List.all_eq_true.mp hb c hc
      simp [hcf] at this
  simp [ingest, create_vector_db, hall, hstorage, status, hempty]

theorem c2_all_or_nothing_witness :
    initState.vector_db = false ∧ initState.storage = none ∧
    (∃ c ∈ chunksOf doc1, envEmbedFail.embedOk c.content = false) ∧
    ((ingest envEmbedFail doc1 initState).2 = false ∧
      (ingest envEmbedFail doc1 initState).1.storage = none ∧
      status (ingest envEmbedFail doc1 initState).1 = Status.Empty) :=
  ⟨rfl, rfl, by decide,
    c2_all_or_nothing envEmbedFail doc1 initState rfl rfl (by decide)⟩

/-- C5: the queries the retriever runs always contain the original
question: with well-formed model output (exactly 3 newline-delimited
variants) the expansion is the question together with the 3 variants, with
malformed output it is the question alone, and in every case anything the
similarity search returns for the original question is in the retrieval
result. -/
theorem c5_expansion_fallback (q out : String)
    (searchFn : String → List Chunk) :
    q ∈ expand q out ∧
    ((parseVariants out).length = 3 → expand q out = q :: parseVariants out) ∧
    ((parseVariants out).length ≠ 3 → expand q out = [q]) ∧
    (∀ c ∈ searchFn q, c ∈ retrieve searchFn q out) := by
  have hq : q ∈ expand q out := by
    by_cases h3 : (parseVariants out).length = 3
    · simp [expand, h3]
    · simp [expand, h3]
  refine ⟨hq, ?_, ?_, ?_⟩
  · intro h
    simp [expand, h]
  · intro h
    simp [expand, h]
  · intro c hc
    unfold retrieve
    rw [mem_dedup]
    exact List.mem_flatten.mpr ⟨searchFn q, List.mem_map_of_mem searchFn hq, hc⟩

theorem c5_expansion_fallback_witness :
    ("q" ∈ expand "q" "" ∧ expand "q" "" = ["q"]) ∧
    expand "q" "v1\nv2\nv3" = ["q", "v1", "v2", "v3"] ∧
    Chunk.mk "d" "x".data
      ∈ retrieve (fun _ => [Chunk.mk "d" "x".data]) "q" "" := by
  refine ⟨⟨(c5_expansion_fallback "q" "" (fun _ => [Chunk.mk "d" "x".data])).1,
    (c5_expansion_fallback "q" "" (fun _ => [Chunk.mk "d" "x".data])).2.2.1
      (by decide)⟩, ?_, ?_⟩
  · rw [(c5_expansion_fallback "q" "v1\nv2\nv3"
      (fun _ => [Chunk.mk "d" "x".data])).2.1 (by decide)]
    decide
  · exact (c5_expansion_fallback "q" ""
      (fun _ => [Chunk.mk "d" "x".data])).2.2.2 (Chunk.mk "d" "x".data)
      (by decide)

/-- C6: a question asked while the session is `Empty` (no index handle)
takes the warning branch — the IndexNotReadyError surface — produces no
answer, and makes no language-model call, so the readiness check precedes
any expansion. -/
theorem c6_query_before_build (llmGen : String → String)
    (searchFn : String → List Chunk) (s : AppState) (p : String)
    (h : status s = Status.Empty) :
    (ask llmGen searchFn s p).indexNotReady = true ∧
    (ask llmGen searchFn s p).llmCalls = 0 ∧
    (ask llmGen searchFn s p).response = none := by
  have hv : s.vector_db = false := by
    cases hb : s.vector_db
    · rfl
    · unfold status at h
      rw [hb] at h
      simp at h
  simp [ask, hv]

theorem c6_query_before_build_witness :
    status initState = Status.Empty ∧
    ((ask (fun _ => "ans") (fun _ => []) initState "x").indexNotReady = true ∧
      (ask (fun _ => "ans") (fun _ => []) initState "x").llmCalls = 0 ∧
      (ask (fun _ => "ans") (fun _ => []) initState "x").response = none) :=
  ⟨rfl, c6_query_before_build (fun _ => "ans") (fun _ => []) initState "x" rfl⟩

/-- C7 (amended): on a cleanup failure during teardown, `delete_vector_db`
performs exactly one retry after a 2000 ms delay; but when the retry also
fails the error is only logged and swallowed — the operation still clears
the session index keys (the logical state machine is reset to Empty) and
reports success, leaving the storage directory in place.  The claim that
the error is surfaced as fatal fails: see the counterexample. -/
theorem c7_retry_then_swallow (env : Env) (s : AppState)
    (hdir : s.storage.isSome = true) (hfail : env.rmtreeOk = false) :
    (delete_vector_db env s).retried = true ∧
    (delete_vector_db env s).delayMs = 2000 ∧
    (delete_vector_db env s).success = true ∧
    (delete_vector_db env s).state.vector_db = false ∧
    (env.rmtreeRetryOk = true → (delete_vector_db env s).state.storage = none) ∧
    (env.rmtreeRetryOk = false →
      (delete_vector_db env s).state.storage = s.storage) := by
  obtain ⟨old, hold⟩ := Option.isSome_iff_exists.mp hdir
  cases hr : env.rmtreeRetryOk <;> simp [delete_vector_db, hold, hfail, hr]

theorem c7_retry_then_swallow_witness :
    stateWithDb.storage.isSome = true ∧ envNoRmtreeAtAll.rmtreeOk = false ∧
    ((delete_vector_db envNoRmtreeAtAll stateWithDb).retried = true ∧
      (delete_vector_db envNoRmtreeAtAll stateWithDb).delayMs = 2000 ∧
      (delete_vector_db envNoRmtreeAtAll stateWithDb).success = true ∧
      (delete_vector_db envNoRmtreeAtAll stateWithDb).state.vector_db = false ∧
      (envNoRmtreeAtAll.rmtreeRetryOk = true →
        (delete_vector_db envNoRmtreeAtAll stateWithDb).state.storage = none) ∧
      (envNoRmtreeAtAll.rmtreeRetryOk = false →
        (delete_vector_db envNoRmtreeAtAll stateWithDb).state.storage
          = stateWithDb.storage)) :=
  ⟨rfl, rfl, c7_retry_then_swallow envNoRmtreeAtAll stateWithDb rfl rfl⟩

/-- C7 counterexample: with both rmtree attempts failing, the operation has
retried exactly once, yet still reports success — the retry-exhausted
error is swallowed (only logged at line 228), not surfaced as fatal to the
caller, and the storage directory survives. -/
theorem c7_counterexample :
    (delete_vector_db envNoRmtreeAtAll stateWithDb).retried = true ∧
    (delete_vector_db envNoRmtreeAtAll stateWithDb).success = true ∧
    (delete_vector_db envNoRmtreeAtAll stateWithDb).state.storage
      = stateWithDb.storage := by
  decide

/-- C8 (amended): conversation history is append-only and never rewritten:
`ask` only appends turns, `ingest` leaves the history unchanged, and —
contrary to the claim — `delete_vector_db` also leaves the history
unchanged: index deletion does not clear the conversation turns (lines
231-233 pop only `pdf_pages`, `file_upload`, `vector_db`). -/
theorem c8_history_append_only (env : Env) (s : AppState) (d : Doc)
    (llmGen : String → String) (searchFn : String → List Chunk)
    (p : String) :
    (∃ t, (ask llmGen searchFn s p).state.messages = s.messages ++ t) ∧
    (delete_vector_db env s).state.messages = s.messages ∧
    (ingest env d s).1.messages = s.messages := by
  refine ⟨?_, rfl, ?_⟩
  · cases hb : s.vector_db
    · exact ⟨[Turn.mk "user" p], by simp [ask, hb]⟩
    · exact ⟨[Turn.mk "user" p,
        Turn.mk "assistant" (process_question llmGen searchFn p).1],
        by simp [ask, hb]⟩
  · cases hcr : (create_vector_db env d s.storage).2 <;> simp [ingest, hcr]

/-- C8 counterexample: deleting the index succeeds and removes the storage,
yet the conversation turn recorded before the deletion is still present
afterwards — history is not cleared wholesale when the index is deleted. -/
theorem c8_counterexample :
    stateWithDb.messages ≠ [] ∧
    (delete_vector_db envGood stateWithDb).state.storage = none ∧
    (delete_vector_db envGood stateWithDb).state.messages
      = stateWithDb.messages := by
  decide

/-- C9: destroy is idempotent: both of two consecutive `delete_vector_db`
calls report success, from every state and under every cleanup outcome;
and when the first call removed the storage, the second call on an
already-absent index is a no-op that changes nothing. -/
theorem c9_idempotent_destroy (env1 env2 : Env) (s : AppState) :
    (delete_vector_db env1 s).success = true ∧
    (delete_vector_db env2 (delete_vector_db env1 s).state).success = true ∧
    ((delete_vector_db env1 s).state.storage = none →
      (delete_vector_db env2 (delete_vector_db env1 s).state).state
        = (delete_vector_db env1 s).state) := by
  refine ⟨rfl, rfl, ?_⟩
  intro h
  exact delete_vector_db_noop env2 _ h rfl rfl rfl

theorem c9_idempotent_destroy_witness :
    (delete_vector_db envGood stateWithDb).success = true ∧
    (delete_vector_db envGood (delete_vector_db envGood stateWithDb).state).success = true ∧
    (delete_vector_db envGood (delete_vector_db envGood stateWithDb).state).state
      = (delete_vector_db envGood stateWithDb).state :=
  ⟨(c9_idempotent_destroy envGood envGood stateWithDb).1,
    (c9_idempotent_destroy envGood envGood stateWithDb).2.1,
    (c9_idempotent_destroy envGood envGood stateWithDb).2.2 (by decide)⟩

end StreamApp
